import Mathlib

/-!
Verification of the employee-generator in `src/main.js`.

The JavaScript program is shallowly embedded as follows.

* JS numbers that reach the `count` field are modelled by `JSNum`:
  an integer, `NaN`, or a non-number value (string, object, ...).
  The program only ever compares `count` with a loop counter, so the
  integer/NaN distinction is all that matters.
* `Math.random()` is modelled by an ambient stream `rand : Nat → ℚ` of
  rational numbers together with a cursor `k : Nat`; every call to the
  random source consumes the value `rand k` and moves the cursor.
  (`Math.random()` always lies in `[0, 1)`; theorems that depend on this
  carry it as a hypothesis.)
* `new Date()` (the current instant) is modelled by its calendar
  components `Now` (year / 0-based month / 1-based day of month /
  milliseconds within the day), taken in the runtime timezone, which is
  fixed to UTC.  `getFullYear`/`setFullYear`/`getTime` are modelled by
  ECMA-262 date arithmetic (`dayFromYear`, `inLeapYear`,
  `dayWithinYearAtMonthStart`, `mkTime`); timestamps are integers
  (milliseconds since the epoch), exactly as `Date.prototype.getTime`.
* `birthdate` is carried as the integer timestamp chosen by
  `generateUniqueBirthdate`; the source formats it with `toISOString`,
  which is injective on millisecond timestamps, so distinctness and
  range statements about the timestamp are statements about the string.
* The `do … while` retry loop of `generateUniqueBirthdate` need not
  terminate (the spec itself flags this), so it is modelled with an
  explicit `fuel` bound; exhausting the fuel yields
  `RunResult.outOfFuel`, standing for divergence.
* JS array indexing out of range yields `undefined`; the embedding uses
  `List.getD _ _ default`.  The default is only reachable when a random
  value lies outside `[0, 1)`, which `Math.random` never produces.
* `main` destructures `dtoIn` before any check; on `null`/`undefined`
  that throws a `TypeError`, modelled by `RunResult.typeError`.
-/

namespace EmployeeGen

/-- Model of the JS value found in the `count` field: a finite number
(the program only compares it with integer loop counters, so it is
modelled as an integer), `NaN`, or a value that is not a number at all.
`typeof count === "number"` is true for the first two. -/
inductive JSNum where
  | num (n : Int)
  | nan
  | notNumber
deriving DecidableEq

/-- Truth value of `typeof count === "number"` for the modelled value. -/
def JSNum.isNumberType : JSNum → Bool
  | .num _ => true
  | .nan => true
  | .notNumber => false

/-- The `age` object of the input DTO: `{min, max}` in years. -/
structure Age where
  min : Int
  max : Int
deriving DecidableEq

/-- The input DTO `{count, age}`.  A missing / falsy `age` field is
`none`. -/
structure Request where
  count : JSNum
  age : Option Age
deriving DecidableEq

/-- Calendar components of the current instant `new Date()` in the
runtime timezone (UTC): year, 0-based month (as `getMonth`), 1-based day
of month (as `getDate`), and milliseconds elapsed within the day. -/
structure Now where
  year : Int
  month : Nat
  day : Nat
  ms : Int
deriving DecidableEq

/-- One generated employee record.  `birthdate` is the millisecond
timestamp chosen by the generator (the source renders it with
`toISOString`, injective on timestamps). -/
structure Employee where
  gender : String
  birthdate : Int
  name : String
  surname : String
  workload : Int
deriving DecidableEq

/-- Outcome of one call to `main`: a normal return, the `TypeError`
thrown when destructuring a `null`/`undefined` argument, or divergence
of the birthdate retry loop (fuel exhausted). -/
inductive RunResult where
  | ok (employees : List Employee)
  | typeError
  | outOfFuel
deriving DecidableEq

/-- The employee list of a normal return, `[]` otherwise. -/
def RunResult.employees : RunResult → List Employee
  | .ok l => l
  | _ => []

/-! ### ECMA-262 date arithmetic (UTC)

`Date` stores milliseconds since the epoch.  `setFullYear` rebuilds the
timestamp from the new year and the old month / day-of-month /
time-of-day, per ECMA-262 `MakeDay`/`MakeDate`.  Note `Int./` in Lean
rounds toward negative infinity for the positive divisors used here,
matching ECMA's `floor`. -/

/-- Milliseconds per day. -/
def msPerDay : Int := 86400000

/-- ECMA-262 `DayFromYear`: day number of 1 January of year `y`. -/
def dayFromYear (y : Int) : Int :=
  365 * (y - 1970) + (y - 1969) / 4 - (y - 1901) / 100 + (y - 1601) / 400

/-- ECMA-262 `InLeapYear` as a predicate on the year number. -/
def inLeapYear (y : Int) : Bool :=
  decide ((y % 4 = 0 ∧ ¬ y % 100 = 0) ∨ y % 400 = 0)

/-- Cumulative day counts at the start of each month of a non-leap
year (ECMA-262 `DayWithinYear` month boundaries). -/
def monthStarts : List Int :=
  [0, 31, 59, 90, 120, 151, 181, 212, 243, 273, 304, 334]

/-- Days from 1 January to the first day of 0-based month `m`
(ECMA-262 `DayWithinYear` at the month start): the non-leap cumulative
count, shifted by one day from March on in a leap year. -/
def dayWithinYearAtMonthStart (leap : Bool) (m : Nat) : Int :=
  monthStarts.getD m 0 + (if leap ∧ 2 ≤ m then 1 else 0)

/-- Timestamp (ms since the epoch) of year `y`, 0-based month `m`,
day-of-month `d`, at `ms` milliseconds into the day — ECMA-262
`MakeDate (MakeDay y m d) ms`.  This is what `getTime` returns after
`setFullYear y` on a date whose month/day/time-of-day are `m`/`d`/`ms`. -/
def mkTime (y : Int) (m d : Nat) (ms : Int) : Int :=
  (dayFromYear y + dayWithinYearAtMonthStart (inLeapYear y) m + (d : Int) - 1)
    * msPerDay + ms

/-- The timestamp of `new Date(now)` after `setFullYear (getFullYear() - k)`:
the current instant with `k` years subtracted. -/
def subYears (now : Now) (k : Int) : Int :=
  mkTime (now.year - k) now.month now.day now.ms

/-! ### The generator itself, from `src/main.js` -/

/-- `randomInt(max)` = `Math.floor(Math.random() * max)`, with the
`Math.random()` draw `r` made explicit. -/
def randomInt (max : Int) (r : ℚ) : Int :=
  Rat.floor (r * (max : ℚ))

/-- The `genders` table of `getGender`. -/
def genders : List String := ["male", "female"]

/-- The `workloads` table of `getWorkload`. -/
def workloads : List Int := [10, 20, 30, 40]

/-- The `maleNames` table of `getName`. -/
def maleNames : List String :=
  ["Jan", "Petr", "Jakub", "Michal", "Ondřej",
   "David", "Tomáš", "Filip", "Martin", "Lukáš",
   "Marek", "Karel", "Václav", "Roman", "Adam", "Matěj"]

/-- The `femaleNames` table of `getName`. -/
def femaleNames : List String :=
  ["Lucie", "Marie", "Anna", "Tereza", "Eva",
   "Kateřina", "Barbora", "Veronika", "Adéla",
   "Kristýna", "Karolína", "Marcela", "Hana",
   "Zuzana", "Jana", "Nikola"]

/-- The `male` surname table of `getSurname`. -/
def maleSurnames : List String :=
  ["Novák", "Svoboda", "Novotný", "Dvořák", "Černý",
   "Procházka", "Kučera", "Veselý", "Horák", "Němec",
   "Marek", "Pokorný", "Pavlík", "Sýkora", "Král", "Růžička"]

/-- The `female` surname table of `getSurname`. -/
def femaleSurnames : List String :=
  ["Nováková", "Svobodová", "Novotná", "Dvořáková", "Černá",
   "Procházková", "Kučerová", "Veselá", "Horáková", "Němcová",
   "Marková", "Pokorná", "Pavlíková", "Sýkorová", "Králová", "Růžičková"]

/-- `getGender(index)`.  Below the table length the entry at `index` is
returned verbatim; from there on a uniformly random entry is drawn
(consuming one random value, hence the returned cursor). -/
def getGender (index : Nat) (rand : Nat → ℚ) (k : Nat) : String × Nat :=
  if index < genders.length then
    (genders.getD index "", k)
  else
    (genders.getD (randomInt (genders.length : Int) (rand k)).toNat "", k + 1)

/-- `getWorkload(index)`: same coverage-first / randomized-tail policy
over the 4-entry workload table. -/
def getWorkload (index : Nat) (rand : Nat → ℚ) (k : Nat) : Int × Nat :=
  if index < workloads.length then
    (workloads.getD index 0, k)
  else
    (workloads.getD (randomInt (workloads.length : Int) (rand k)).toNat 0, k + 1)

/-- `getName(index, gender)`: picks the list by `gender === "male"`,
then applies the coverage-first / randomized-tail policy to it. -/
def getName (index : Nat) (gender : String) (rand : Nat → ℚ) (k : Nat) :
    String × Nat :=
  let list := if gender = "male" then maleNames else femaleNames
  if index < list.length then
    (list.getD index "", k)
  else
    (list.getD (randomInt (list.length : Int) (rand k)).toNat "", k + 1)

/-- `getSurname(index, gender)`: same policy over the surname tables. -/
def getSurname (index : Nat) (gender : String) (rand : Nat → ℚ) (k : Nat) :
    String × Nat :=
  let list := if gender = "male" then maleSurnames else femaleSurnames
  if index < list.length then
    (list.getD index "", k)
  else
    (list.getD (randomInt (list.length : Int) (rand k)).toNat "", k + 1)

/-- The `do { ts = minTime + Math.floor(Math.random() * diff) } while
(usedBirthdates.has(ts))` retry loop, with explicit fuel.  Returns the
accepted timestamp and the advanced random cursor. -/
def birthdateTry (minTime diff : Int) (used : List Int) (rand : Nat → ℚ) :
    Nat → Nat → Option (Int × Nat)
  | 0, _ => none
  | fuel + 1, k =>
    let ts := minTime + Rat.floor (rand k * (diff : ℚ))
    if ts ∈ used then birthdateTry minTime diff used rand fuel (k + 1)
    else some (ts, k + 1)

/-- `generateUniqueBirthdate(age, usedBirthdates)`: computes the window
`[minTime, maxTime)` by subtracting `age.max` resp. `age.min` years from
the current instant, retries until a timestamp outside `usedBirthdates`
is found, and records it (returning the grown set, modelling the
`usedBirthdates.add(ts)` mutation). -/
def generateUniqueBirthdate (age : Age) (now : Now) (used : List Int)
    (rand : Nat → ℚ) (fuel k : Nat) : Option (Int × List Int × Nat) :=
  let minTime := subYears now age.max
  let maxTime := subYears now age.min
  let diff := maxTime - minTime
  match birthdateTry minTime diff used rand fuel k with
  | none => none
  | some (ts, k') => some (ts, ts :: used, k')

/-- Number of iterations of `for (let i = 0; i < count; i++)` for the
modelled `count` value: `i < NaN` is always false, a negative bound also
gives zero iterations.  (Only number-typed counts reach the loop.) -/
def iterations : JSNum → Nat
  | .num n => n.toNat
  | _ => 0

/-- The body of `main`'s `for` loop, iterated: `i` is the current index,
the second argument the number of iterations still to run, `k` the
random cursor and `used` the set of issued birthdate timestamps. -/
def genLoop (age : Age) (now : Now) (rand : Nat → ℚ) (fuel : Nat) :
    Nat → Nat → Nat → List Int → Option (List Employee)
  | _, 0, _, _ => some []
  | i, m + 1, k, used =>
    let g := getGender i rand k
    let w := getWorkload i rand g.2
    let nm := getName i g.1 rand w.2
    let sn := getSurname i g.1 rand nm.2
    match generateUniqueBirthdate age now used rand fuel sn.2 with
    | none => none
    | some (ts, used', k5) =>
      match genLoop age now rand fuel (i + 1) m k5 used' with
      | none => none
      | some rest =>
        some (⟨g.1, ts, nm.1, sn.1, w.1⟩ :: rest)

/-- `main(dtoIn)`.  Destructuring `const { count, age } = dtoIn` comes
first in the source, so a `null`/`undefined` argument throws a
`TypeError` before the validation guard can run; for an object argument
the guard `typeof count !== "number" || !age` returns `[]`, and
otherwise the generation loop runs `count` times. -/
def main (dtoIn : Option Request) (now : Now) (rand : Nat → ℚ)
    (fuel : Nat) : RunResult :=
  match dtoIn with
  | none => .typeError
  | some req =>
    if !req.count.isNumberType || req.age.isNone then .ok []
    else
      match req.age with
      | none => .ok []
      | some age =>
        match genLoop age now rand fuel 0 (iterations req.count) 0 [] with
        | none => .outOfFuel
        | some l => .ok l

/-! ### Concrete data used by the closed witness runs -/

/-- A concrete current instant for witness runs: 2026-10-11T00:00:00Z. -/
def nowW : Now := ⟨2026, 9, 11, 0⟩

/-- A concrete deterministic random stream for witness runs, with all
values in `[0, 1)`. -/
def randW : Nat → ℚ := fun k => mkRat (k % 8 : Nat) 8

/-- A concrete age range for witness runs. -/
def ageW : Age := ⟨20, 30⟩

/-- The four records returned by `main` on the witness request
`count = 4`, `age = ageW`, at the witness instant and random stream. -/
def empsW4 : List Employee :=
  [⟨"male", 844992000000, "Jan", "Novák", 10⟩,
   ⟨"female", 884433600000, "Marie", "Svobodová", 20⟩,
   ⟨"male", 963316800000, "Jakub", "Novotný", 30⟩,
   ⟨"female", 1042200000000, "Tereza", "Dvořáková", 40⟩]

/-- The single record returned by `main` on the degenerate request
`count = 1`, `age.min = age.max = 30`: its birthdate is exactly
`minTime = maxTime`. -/
def empsDegenerate : List Employee :=
  [⟨"male", 844992000000, "Jan", "Novák", 10⟩]

/-- All values of the witness random stream lie in `[0, 1)`. -/
lemma randW_mem (j : Nat) : 0 ≤ randW j ∧ randW j < 1 := by
  unfold randW
  rw [Rat.mkRat_eq_div]
  constructor
  · positivity
  · rw [div_lt_one (by norm_num)]
    have : (j % 8 : Nat) < 8 := Nat.mod_lt _ (by norm_num)
    exact_mod_cast this

instance : Inhabited Employee := ⟨⟨"", 0, "", "", 0⟩⟩

/-! ### Arithmetic facts about the random draw -/

/-- `Rat.floor` agrees with the mathematical floor (the `FloorRing`
instance of `ℚ` is built from it). -/
lemma ratFloor_eq_floor (q : ℚ) : Rat.floor q = ⌊q⌋ := rfl

/-- `Math.floor(r * m)` lies in `[0, m)` whenever `r ∈ [0, 1)` and
`m > 0`. -/
lemma floor_mul_mem (r : ℚ) (m : Int) (h0 : 0 ≤ r) (h1 : r < 1)
    (hm : 0 < m) :
    0 ≤ Rat.floor (r * (m : ℚ)) ∧ Rat.floor (r * (m : ℚ)) < m := by
  rw [ratFloor_eq_floor]
  constructor
  · exact Int.floor_nonneg.mpr (mul_nonneg h0 (by exact_mod_cast hm.le))
  · rw [Int.floor_lt]
    calc r * (m : ℚ) < 1 * (m : ℚ) :=
          mul_lt_mul_of_pos_right h1 (by exact_mod_cast hm)
      _ = (m : ℚ) := one_mul _

/-! ### Calendar lemmas: subtracting more years gives an earlier instant -/

/-- One more calendar year adds 365 days, or 366 across a leap year. -/
lemma dayFromYear_succ (y : Int) :
    dayFromYear (y + 1) =
      dayFromYear y + 365 + (if inLeapYear y then 1 else 0) := by
  unfold dayFromYear inLeapYear
  split
  case isTrue h =>
    rw [decide_eq_true_eq] at h
    omega
  case isFalse h =>
    rw [decide_eq_true_eq] at h
    omega

/-- The month-start table differs by at most one day between the leap
and the non-leap variant. -/
lemma dayWithinYear_leap_bounds (b : Bool) (m : Nat) :
    dayWithinYearAtMonthStart false m ≤ dayWithinYearAtMonthStart b m ∧
    dayWithinYearAtMonthStart b m ≤ dayWithinYearAtMonthStart false m + 1 := by
  unfold dayWithinYearAtMonthStart
  cases b <;> split <;> simp_all <;> omega

/-- `mkTime` grows strictly with the year (month, day and time of day
fixed). -/
lemma mkTime_lt_succ (y : Int) (m d : Nat) (ms : Int) :
    mkTime y m d ms < mkTime (y + 1) m d ms := by
  have h1 := dayFromYear_succ y
  have h2 := dayWithinYear_leap_bounds (inLeapYear y) m
  have h3 := dayWithinYear_leap_bounds (inLeapYear (y + 1)) m
  unfold mkTime msPerDay
  by_cases hy : inLeapYear y = true
  · rw [hy] at h1 h2 ⊢
    simp only [if_pos rfl] at h1
    omega
  · rw [Bool.not_eq_true] at hy
    rw [hy] at h1 h2 ⊢
    simp at h1
    omega

/-- `mkTime` is strictly monotone in the year. -/
lemma mkTime_year_strictMono (m d : Nat) (ms : Int) :
    StrictMono (fun y : Int => mkTime y m d ms) :=
  strictMono_int_of_lt_succ fun y => mkTime_lt_succ y m d ms

/-- Subtracting strictly more years yields a strictly earlier instant. -/
lemma subYears_lt_of_gt (now : Now) (k1 k2 : Int) (h : k2 < k1) :
    subYears now k1 < subYears now k2 :=
  mkTime_year_strictMono now.month now.day now.ms
    (show now.year - k1 < now.year - k2 by omega)

/-! ### The birthdate retry loop -/

/-- A timestamp accepted by the retry loop was not among the used ones. -/
lemma birthdateTry_not_mem (minTime diff : Int) (used : List Int)
    (rand : Nat → ℚ) :
    ∀ fuel k ts k', birthdateTry minTime diff used rand fuel k = some (ts, k') →
      ts ∉ used := by
  intro fuel
  induction fuel with
  | zero => intro k ts k' h; simp [birthdateTry] at h
  | succ fuel ih =>
    intro k ts k' h
    rw [birthdateTry] at h
    split at h
    · exact ih _ _ _ h
    · next hmem =>
      obtain ⟨rfl, rfl⟩ :
          minTime + Rat.floor (rand k * (diff : ℚ)) = ts ∧ k + 1 = k' := by
        simpa using h
      exact hmem

/-- A timestamp accepted by the retry loop lies in
`[minTime, minTime + diff)` when the random stream stays in `[0, 1)`
and the window is nonempty. -/
lemma birthdateTry_range (minTime diff : Int) (used : List Int)
    (rand : Nat → ℚ) (hr : ∀ j, 0 ≤ rand j ∧ rand j < 1)
    (hd : 0 < diff) :
    ∀ fuel k ts k', birthdateTry minTime diff used rand fuel k = some (ts, k') →
      minTime ≤ ts ∧ ts < minTime + diff := by
  intro fuel
  induction fuel with
  | zero => intro k ts k' h; simp [birthdateTry] at h
  | succ fuel ih =>
    intro k ts k' h
    rw [birthdateTry] at h
    split at h
    · exact ih _ _ _ h
    · obtain ⟨rfl, rfl⟩ :
          minTime + Rat.floor (rand k * (diff : ℚ)) = ts ∧ k + 1 = k' := by
        simpa using h
      have := floor_mul_mem (rand k) diff (hr k).1 (hr k).2 hd
      omega

/-- A successful `generateUniqueBirthdate` returns a fresh timestamp and
the set grown by exactly that timestamp. -/
lemma generateUniqueBirthdate_spec (age : Age) (now : Now) (used : List Int)
    (rand : Nat → ℚ) (fuel k : Nat) (ts : Int) (u' : List Int) (k' : Nat)
    (h : generateUniqueBirthdate age now used rand fuel k = some (ts, u', k')) :
    u' = ts :: used ∧ ts ∉ used := by
  simp only [generateUniqueBirthdate] at h
  cases hb : birthdateTry (subYears now age.max)
      (subYears now age.min - subYears now age.max) used rand fuel k with
  | none => rw [hb] at h; simp at h
  | some p =>
    rw [hb] at h
    obtain ⟨p1, p2⟩ := p
    obtain ⟨rfl, rfl, rfl⟩ : p1 = ts ∧ p1 :: used = u' ∧ p2 = k' := by
      simpa using h
    exact ⟨rfl, birthdateTry_not_mem _ _ _ _ _ _ _ _ hb⟩

/-- A successful `generateUniqueBirthdate` returns a timestamp in the
window `[now - age.max years, now - age.min years)`, provided the random
stream stays in `[0, 1)` and the window is nonempty. -/
lemma generateUniqueBirthdate_range (age : Age) (now : Now) (used : List Int)
    (rand : Nat → ℚ) (fuel k : Nat) (ts : Int) (u' : List Int) (k' : Nat)
    (hr : ∀ j, 0 ≤ rand j ∧ rand j < 1)
    (hlt : subYears now age.max < subYears now age.min)
    (h : generateUniqueBirthdate age now used rand fuel k = some (ts, u', k')) :
    subYears now age.max ≤ ts ∧ ts < subYears now age.min := by
  simp only [generateUniqueBirthdate] at h
  cases hb : birthdateTry (subYears now age.max)
      (subYears now age.min - subYears now age.max) used rand fuel k with
  | none => rw [hb] at h; simp at h
  | some p =>
    rw [hb] at h
    obtain ⟨p1, p2⟩ := p
    obtain ⟨rfl, rfl, rfl⟩ : p1 = ts ∧ p1 :: used = u' ∧ p2 = k' := by
      simpa using h
    have := birthdateTry_range _ _ _ _ hr (by omega) _ _ _ _ hb
    omega

/-! ### Structure of the generation loop -/

/-- A successful run of `m + 1` iterations starts with a record whose
fields come from the four selectors at index `i` (at some random
cursors) and a fresh birthdate, followed by a successful run of the
remaining `m` iterations on the grown timestamp set. -/
lemma genLoop_succ_shape (age : Age) (now : Now) (rand : Nat → ℚ)
    (fuel i m k : Nat) (used : List Int) (l : List Employee)
    (h : genLoop age now rand fuel i (m + 1) k used = some l) :
    ∃ e rest k1 k2 k3 ku k5,
      l = e :: rest ∧
      e.gender = (getGender i rand k).1 ∧
      e.workload = (getWorkload i rand k1).1 ∧
      e.name = (getName i e.gender rand k2).1 ∧
      e.surname = (getSurname i e.gender rand k3).1 ∧
      generateUniqueBirthdate age now used rand fuel ku =
        some (e.birthdate, e.birthdate :: used, k5) ∧
      genLoop age now rand fuel (i + 1) m k5 (e.birthdate :: used) =
        some rest := by
  simp only [genLoop] at h
  split at h
  · exact absurd h (by simp)
  · next ts used' k5 heq =>
    split at h
    · exact absurd h (by simp)
    · next rest hrest =>
      obtain rfl : _ = l := Option.some.inj h
      obtain ⟨rfl, -⟩ :=
        generateUniqueBirthdate_spec age now used rand fuel _ ts used' k5 heq
      exact ⟨_, rest, _, _, _, _, k5, rfl, rfl, rfl, rfl, rfl, heq, hrest⟩

/-- A successful run of `m` iterations returns exactly `m` records. -/
lemma genLoop_length (age : Age) (now : Now) (rand : Nat → ℚ)
    (fuel : Nat) :
    ∀ m i k used l, genLoop age now rand fuel i m k used = some l →
      l.length = m := by
  intro m
  induction m with
  | zero =>
    intro i k used l h
    simp only [genLoop] at h
    obtain rfl : _ = l := Option.some.inj h
    rfl
  | succ m ih =>
    intro i k used l h
    obtain ⟨e, rest, -, -, -, -, k5, rfl, -, -, -, -, -, hrest⟩ :=
      genLoop_succ_shape age now rand fuel i m k used l h
    simpa using ih _ _ _ _ hrest

/-- Dropping the first `j` records of a successful run leaves a
successful run of the remaining iterations, starting at index `i + j`. -/
lemma genLoop_drop (age : Age) (now : Now) (rand : Nat → ℚ) (fuel : Nat) :
    ∀ j m i k used l, genLoop age now rand fuel i m k used = some l →
      j ≤ m →
      ∃ k2 used2, genLoop age now rand fuel (i + j) (m - j) k2 used2 =
        some (l.drop j) := by
  intro j
  induction j with
  | zero =>
    intro m i k used l h _
    exact ⟨k, used, by simpa using h⟩
  | succ j ih =>
    intro m i k used l h hj
    obtain ⟨m', rfl⟩ : ∃ m', m = m' + 1 := ⟨m - 1, by omega⟩
    obtain ⟨e, rest, -, -, -, -, k5, rfl, -, -, -, -, -, hrest⟩ :=
      genLoop_succ_shape age now rand fuel i m' k used l h
    obtain ⟨k2, used2, hres⟩ := ih m' (i + 1) k5 _ rest hrest (by omega)
    refine ⟨k2, used2, ?_⟩
    have e1 : i + (j + 1) = i + 1 + j := by omega
    have e2 : m' + 1 - (j + 1) = m' - j := by omega
    rw [e1, e2, List.drop_succ_cons]
    exact hres

/-- For a number-typed `count` and a present `age`, `main` returns
normally exactly when the generation loop does, with the same list. -/
lemma main_ok_iff (req : Request) (n : Int) (age : Age) (now : Now)
    (rand : Nat → ℚ) (fuel : Nat) (l : List Employee)
    (hc : req.count = JSNum.num n) (ha : req.age = some age) :
    main (some req) now rand fuel = .ok l ↔
      genLoop age now rand fuel 0 n.toNat 0 [] = some l := by
  simp only [main, hc, ha, JSNum.isNumberType, iterations, Option.isNone_some,
    Bool.not_true, Bool.or_self, Bool.false_or]
  cases hg : genLoop age now rand fuel 0 n.toNat 0 [] <;> simp [hg]

/-- Loop invariant for uniqueness: a successful run produces pairwise
distinct birthdates, all of them outside the incoming used set. -/
lemma genLoop_nodup (age : Age) (now : Now) (rand : Nat → ℚ) (fuel : Nat) :
    ∀ m i k used l, genLoop age now rand fuel i m k used = some l →
      (∀ e ∈ l, e.birthdate ∉ used) ∧
      (l.map Employee.birthdate).Nodup := by
  intro m
  induction m with
  | zero =>
    intro i k used l h
    simp only [genLoop] at h
    obtain rfl : _ = l := Option.some.inj h
    simp
  | succ m ih =>
    intro i k used l h
    obtain ⟨e, rest, -, -, -, ku, k5, rfl, -, -, -, -, hbd, hrest⟩ :=
      genLoop_succ_shape age now rand fuel i m k used l h
    obtain ⟨-, hfresh⟩ :=
      generateUniqueBirthdate_spec age now used rand fuel _ _ _ _ hbd
    obtain ⟨hout, hnodup⟩ := ih _ _ _ _ hrest
    refine ⟨?_, ?_⟩
    · intro e' he'
      rcases List.mem_cons.mp he' with rfl | he'
      · exact hfresh
      · intro hmem
        exact hout e' he' (List.mem_cons_of_mem _ hmem)
    · rw [List.map_cons, List.nodup_cons]
      refine ⟨?_, hnodup⟩
      intro hmem
      obtain ⟨e', he', heq⟩ := List.mem_map.mp hmem
      exact hout e' he' (heq ▸ List.mem_cons_self _ _)

/-- Loop invariant for the window: with a random stream in `[0, 1)` and
a nonempty window, every produced birthdate lies in
`[now - age.max years, now - age.min years)`. -/
lemma genLoop_range (age : Age) (now : Now) (rand : Nat → ℚ) (fuel : Nat)
    (hr : ∀ j, 0 ≤ rand j ∧ rand j < 1)
    (hlt : subYears now age.max < subYears now age.min) :
    ∀ m i k used l, genLoop age now rand fuel i m k used = some l →
      ∀ e ∈ l, subYears now age.max ≤ e.birthdate ∧
        e.birthdate < subYears now age.min := by
  intro m
  induction m with
  | zero =>
    intro i k used l h
    simp only [genLoop] at h
    obtain rfl : _ = l := Option.some.inj h
    simp
  | succ m ih =>
    intro i k used l h
    obtain ⟨e, rest, -, -, -, ku, k5, rfl, -, -, -, -, hbd, hrest⟩ :=
      genLoop_succ_shape age now rand fuel i m k used l h
    intro e' he'
    rcases List.mem_cons.mp he' with rfl | he'
    · exact generateUniqueBirthdate_range age now used rand fuel _ _ _ _
        hr hlt hbd
    · exact ih _ _ _ _ hrest e' he'

/-! ### Values of the selectors below their table lengths -/

/-- `getName` at an index below 16 reads the gendered table verbatim. -/
lemma getName_small (j : Nat) (hj : j < 16) (g : String) (rand : Nat → ℚ)
    (k : Nat) :
    (getName j g rand k).1 =
      (if g = "male" then maleNames else femaleNames).getD j "" := by
  unfold getName
  by_cases hg : g = "male" <;>
    simp [hg, maleNames, femaleNames, hj]

/-- `getSurname` at an index below 16 reads the gendered table verbatim. -/
lemma getSurname_small (j : Nat) (hj : j < 16) (g : String) (rand : Nat → ℚ)
    (k : Nat) :
    (getSurname j g rand k).1 =
      (if g = "male" then maleSurnames else femaleSurnames).getD j "" := by
  unfold getSurname
  by_cases hg : g = "male" <;>
    simp [hg, maleSurnames, femaleSurnames, hj]

/-- Any normal return of `main` on an object argument is either the
guard's empty list or a completed generation loop. -/
lemma main_ok_cases (req : Request) (now : Now) (rand : Nat → ℚ)
    (fuel : Nat) (l : List Employee)
    (h : main (some req) now rand fuel = .ok l) :
    l = [] ∨ ∃ age, req.age = some age ∧
      genLoop age now rand fuel 0 (iterations req.count) 0 [] = some l := by
  simp only [main] at h
  by_cases hguard : (!req.count.isNumberType || req.age.isNone) = true
  · rw [if_pos hguard] at h
    exact Or.inl (RunResult.ok.inj h).symm
  · rw [if_neg hguard] at h
    cases hage : req.age with
    | none =>
      rw [hage] at hguard
      simp at hguard
    | some age =>
      rw [hage] at h
      have h' : (match genLoop age now rand fuel 0 (iterations req.count)
            0 [] with
          | none => RunResult.outOfFuel
          | some l => RunResult.ok l) = RunResult.ok l := h
      cases hg : genLoop age now rand fuel 0 (iterations req.count) 0 [] with
      | none => rw [hg] at h'; exact absurd h' (by simp)
      | some l' =>
        rw [hg] at h'
        exact Or.inr ⟨age, rfl, by rw [hg, RunResult.ok.inj h']⟩

/-! ### Concrete witness runs, evaluated once and shared -/

set_option maxHeartbeats 4000000 in
/-- Evaluation of the witness run with `count = 4`. -/
lemma mainRunW4 :
    main (some ⟨JSNum.num 4, some ageW⟩) nowW randW 1 = .ok empsW4 := by
  norm_num +decide [empsW4, main, JSNum.isNumberType, iterations, genLoop,
    getGender, getWorkload, getName, getSurname, generateUniqueBirthdate,
    birthdateTry, randomInt, subYears, mkTime, dayFromYear, inLeapYear,
    dayWithinYearAtMonthStart, monthStarts, msPerDay, genders, workloads,
    maleNames, femaleNames, maleSurnames, femaleSurnames, randW, nowW, ageW,
    Rat.mkRat_eq_div, ratFloor_eq_floor, Int.floor_ofNat, Int.floor_natCast,
    Int.floor_intCast]

set_option maxHeartbeats 4000000 in
/-- Evaluation of the degenerate run `count = 1`, `age.min = age.max = 30`:
the window `[minTime, maxTime)` is empty (`diff = 0`), and the code
returns the single timestamp `minTime = maxTime` itself. -/
lemma mainRunDegenerate :
    main (some ⟨JSNum.num 1, some ⟨30, 30⟩⟩) nowW randW 1 =
      .ok empsDegenerate := by
  norm_num +decide [empsDegenerate, main, JSNum.isNumberType, iterations,
    genLoop, getGender, getWorkload, getName, getSurname,
    generateUniqueBirthdate, birthdateTry, randomInt, subYears, mkTime,
    dayFromYear, inLeapYear, dayWithinYearAtMonthStart, monthStarts, msPerDay,
    genders, workloads, maleNames, femaleNames, maleSurnames, femaleSurnames,
    randW, nowW, Rat.mkRat_eq_div, ratFloor_eq_floor, Int.floor_ofNat,
    Int.floor_natCast, Int.floor_intCast]

/-! ### The claims -/

/-- C1: the spec says `generate(null)` (and an `undefined` request)
returns an empty sequence with no error, and the guard `!dtoIn` in the
source shows that intent — but the source destructures
`const { count, age } = dtoIn` *before* that guard, so a
`null`/`undefined` argument throws a `TypeError` and the guard is dead
code.  The code contradicts the spec's (and its own guard's) intent:
`main(null)` throws instead of returning `[]`. -/
theorem main_null_typeError (now : Now) (rand : Nat → ℚ) (fuel : Nat) :
    main none now rand fuel = RunResult.typeError := rfl

/-- C2: for every valid request — `count` a number with integer value
`n ≥ 0` and `age` present — a normal return of `generate` carries
exactly `count` records. -/
theorem main_valid_count_length (req : Request) (n : Int) (age : Age)
    (now : Now) (rand : Nat → ℚ) (fuel : Nat) (l : List Employee)
    (hc : req.count = JSNum.num n) (hn : 0 ≤ n) (ha : req.age = some age)
    (h : main (some req) now rand fuel = .ok l) :
    (l.length : Int) = n := by
  have hlen := genLoop_length age now rand fuel n.toNat 0 0 [] l
    ((main_ok_iff req n age now rand fuel l hc ha).mp h)
  rw [hlen]
  exact Int.toNat_of_nonneg hn

/-- C2 witness: a concrete valid request with `count = 4` yields
exactly 4 records. -/
theorem main_valid_count_length_witness : ((empsW4).length : Int) = 4 :=
  main_valid_count_length ⟨JSNum.num 4, some ageW⟩ 4 ageW nowW randW 1
    empsW4 rfl (by decide) rfl mainRunW4

/-- C3: for a non-null request whose `count` is not number-typed or
whose `age` is absent, `generate` returns the empty list — no
exception, no partial output. -/
theorem main_invalid_empty (req : Request) (now : Now) (rand : Nat → ℚ)
    (fuel : Nat)
    (h : req.count.isNumberType = false ∨ req.age = none) :
    main (some req) now rand fuel = .ok [] := by
  rcases h with h | h
  · simp [main, h]
  · simp [main, h]

/-- C3 witness: a request whose `count` is not a number yields `[]`. -/
theorem main_invalid_empty_witness :
    main (some ⟨JSNum.notNumber, some ageW⟩) nowW randW 1 = .ok [] :=
  main_invalid_empty ⟨JSNum.notNumber, some ageW⟩ nowW randW 1 (Or.inl rfl)

/-- C9: `randomInt(max)` returns an integer in `[0, max)` for every
positive `max` and every random draw in `[0, 1)`. -/
theorem randomInt_range (max : Int) (r : ℚ) (hm : 0 < max) (h0 : 0 ≤ r)
    (h1 : r < 1) : 0 ≤ randomInt max r ∧ randomInt max r < max :=
  floor_mul_mem r max h0 h1 hm

/-- C9 witness: `randomInt 6` at the draw `1/2` lies in `[0, 6)`. -/
theorem randomInt_range_witness :
    (0 : Int) < 6 ∧ (0 : ℚ) ≤ mkRat 1 2 ∧ mkRat 1 2 < 1 ∧
    0 ≤ randomInt 6 (mkRat 1 2) ∧ randomInt 6 (mkRat 1 2) < 6 :=
  ⟨by decide, by decide, by decide,
    randomInt_range 6 (mkRat 1 2) (by decide) (by decide) (by decide)⟩

/-- C10: a request whose `count` is number-typed but `NaN` or negative
passes the `typeof` guard, yet the loop condition `i < count` is never
true, so `generate` returns the empty list. -/
theorem main_nan_or_negative_empty (req : Request) (n : Int) (now : Now)
    (rand : Nat → ℚ) (fuel : Nat)
    (h : req.count = JSNum.nan ∨ (req.count = JSNum.num n ∧ n < 0)) :
    main (some req) now rand fuel = .ok [] := by
  rcases h with h | ⟨h, hn⟩
  · cases ha : req.age with
    | none => simp [main, ha]
    | some age =>
      simp [main, h, ha, JSNum.isNumberType, iterations, genLoop]
  · cases ha : req.age with
    | none => simp [main, ha]
    | some age =>
      have h0 : n.toNat = 0 := by omega
      simp [main, h, ha, JSNum.isNumberType, iterations, h0, genLoop]

/-- C10 witness: a `NaN` count with a present age yields `[]`. -/
theorem main_nan_or_negative_empty_witness :
    main (some ⟨JSNum.nan, some ageW⟩) nowW randW 1 = .ok [] :=
  main_nan_or_negative_empty ⟨JSNum.nan, some ageW⟩ 0 nowW randW 1
    (Or.inl rfl)

/-- C4 counterexample: the claim demands `ts < maxTime` for every valid
request with `age.min ≤ age.max`.  Take `age.min = age.max = 30` (which
satisfies `min ≤ max`): then `minTime = maxTime = subYears nowW 30`,
`diff = 0`, and the single returned record's birthdate IS
`subYears nowW 30` — which is not `< maxTime`.  So the claim as stated
is false at this input. -/
theorem birthdate_window_cex :
    ((main (some ⟨JSNum.num 1, some ⟨30, 30⟩⟩) nowW randW 1).employees).map
        Employee.birthdate = [subYears nowW 30] ∧
    ¬ subYears nowW 30 < subYears nowW 30 :=
  ⟨by rw [mainRunDegenerate]; decide, lt_irrefl _⟩

/-- C4 (amended): for every valid request with `age.min < age.max`
(strict — with `age.min = age.max` the half-open window is empty and
the code returns `ts = minTime = maxTime`, violating the strict upper
bound), every returned record's birthdate timestamp `ts` satisfies
`minTime ≤ ts < maxTime`, where `minTime`/`maxTime` are the current
instant with `age.max`/`age.min` years subtracted. -/
theorem birthdate_in_window (req : Request) (n : Int) (age : Age)
    (now : Now) (rand : Nat → ℚ) (fuel : Nat) (l : List Employee)
    (e : Employee)
    (hr : ∀ j, 0 ≤ rand j ∧ rand j < 1)
    (hc : req.count = JSNum.num n) (ha : req.age = some age)
    (hminmax : age.min < age.max)
    (h : main (some req) now rand fuel = .ok l) (he : e ∈ l) :
    subYears now age.max ≤ e.birthdate ∧
    e.birthdate < subYears now age.min := by
  have hlt : subYears now age.max < subYears now age.min :=
    subYears_lt_of_gt now age.max age.min hminmax
  exact genLoop_range age now rand fuel hr hlt n.toNat 0 0 [] l
    ((main_ok_iff req n age now rand fuel l hc ha).mp h) e he

/-- C4 witness: the first record of the `count = 4` witness run has its
birthdate inside `[now - 30 years, now - 20 years)`. -/
theorem birthdate_in_window_witness :
    subYears nowW 30 ≤ (844992000000 : Int) ∧
    (844992000000 : Int) < subYears nowW 20 :=
  birthdate_in_window ⟨JSNum.num 4, some ageW⟩ 4 ageW nowW randW 1 empsW4
    ⟨"male", 844992000000, "Jan", "Novák", 10⟩ randW_mem rfl rfl
    (by decide) mainRunW4 (by simp [empsW4])

/-- C5: within one normal run of `generate`, the birthdate timestamps
of the returned records are pairwise distinct (the run-scoped used-set
rejects an already-issued millisecond timestamp). -/
theorem birthdates_distinct (req : Request) (now : Now) (rand : Nat → ℚ)
    (fuel : Nat) (l : List Employee)
    (h : main (some req) now rand fuel = .ok l) :
    (l.map Employee.birthdate).Nodup := by
  rcases main_ok_cases req now rand fuel l h with rfl | ⟨age, -, hg⟩
  · simp
  · exact (genLoop_nodup age now rand fuel (iterations req.count) 0 0 [] l
      hg).2

/-- C5 witness: the four birthdates of the witness run are pairwise
distinct. -/
theorem birthdates_distinct_witness :
    ((empsW4).map Employee.birthdate).Nodup :=
  birthdates_distinct ⟨JSNum.num 4, some ageW⟩ nowW randW 1 empsW4 mainRunW4

/-- C6: in every normal run with `count ≥ 2`, record 0 has gender
`"male"` and record 1 has gender `"female"`, whatever the random
stream produces (indices 0 and 1 never consult it). -/
theorem first_two_genders (req : Request) (n : Int) (age : Age)
    (now : Now) (rand : Nat → ℚ) (fuel : Nat) (l : List Employee)
    (hc : req.count = JSNum.num n) (hn : 2 ≤ n) (ha : req.age = some age)
    (h : main (some req) now rand fuel = .ok l) :
    (l.map Employee.gender).take 2 = ["male", "female"] := by
  have hg := (main_ok_iff req n age now rand fuel l hc ha).mp h
  obtain ⟨m, hm⟩ : ∃ m, n.toNat = m + 1 + 1 := ⟨n.toNat - 2, by omega⟩
  rw [hm] at hg
  obtain ⟨e0, rest0, -, -, -, -, k5, rfl, hg0, -, -, -, -, hrest0⟩ :=
    genLoop_succ_shape age now rand fuel 0 (m + 1) 0 [] l hg
  obtain ⟨e1, rest1, -, -, -, -, k5b, rfl, hg1, -, -, -, -, -⟩ :=
    genLoop_succ_shape age now rand fuel (0 + 1) m k5 _ rest0 hrest0
  show [e0.gender, e1.gender] = ["male", "female"]
  rw [hg0, hg1]
  rfl

/-- C6 witness: the witness run starts with a male then a female
record. -/
theorem first_two_genders_witness :
    ((empsW4).map Employee.gender).take 2 = ["male", "female"] :=
  first_two_genders ⟨JSNum.num 4, some ageW⟩ 4 ageW nowW randW 1 empsW4
    rfl (by decide) rfl mainRunW4

/-- C7: in every normal run with `count ≥ 4`, records 0..3 carry the
workloads `10, 20, 30, 40` in that order, whatever the random stream
produces (indices 0..3 never consult it for the workload). -/
theorem first_four_workloads (req : Request) (n : Int) (age : Age)
    (now : Now) (rand : Nat → ℚ) (fuel : Nat) (l : List Employee)
    (hc : req.count = JSNum.num n) (hn : 4 ≤ n) (ha : req.age = some age)
    (h : main (some req) now rand fuel = .ok l) :
    (l.map Employee.workload).take 4 = [10, 20, 30, 40] := by
  have hg := (main_ok_iff req n age now rand fuel l hc ha).mp h
  obtain ⟨m, hm⟩ : ∃ m, n.toNat = m + 1 + 1 + 1 + 1 := ⟨n.toNat - 4, by omega⟩
  rw [hm] at hg
  obtain ⟨e0, rest0, kw0, -, -, -, k5a, rfl, -, hw0, -, -, -, hrest0⟩ :=
    genLoop_succ_shape age now rand fuel 0 (m + 1 + 1 + 1) 0 [] l hg
  obtain ⟨e1, rest1, kw1, -, -, -, k5b, rfl, -, hw1, -, -, -, hrest1⟩ :=
    genLoop_succ_shape age now rand fuel (0 + 1) (m + 1 + 1) k5a _ rest0 hrest0
  obtain ⟨e2, rest2, kw2, -, -, -, k5c, rfl, -, hw2, -, -, -, hrest2⟩ :=
    genLoop_succ_shape age now rand fuel (0 + 1 + 1) (m + 1) k5b _ rest1 hrest1
  obtain ⟨e3, rest3, kw3, -, -, -, k5d, rfl, -, hw3, -, -, -, -⟩ :=
    genLoop_succ_shape age now rand fuel (0 + 1 + 1 + 1) m k5c _ rest2 hrest2
  show [e0.workload, e1.workload, e2.workload, e3.workload] = [10, 20, 30, 40]
  rw [hw0, hw1, hw2, hw3]
  rfl

/-- C7 witness: the witness run's first four workloads are
`10, 20, 30, 40`. -/
theorem first_four_workloads_witness :
    ((empsW4).map Employee.workload).take 4 = [10, 20, 30, 40] :=
  first_four_workloads ⟨JSNum.num 4, some ageW⟩ 4 ageW nowW randW 1 empsW4
    rfl (by decide) rfl mainRunW4

/-- C8: in every normal run, the record at an index `j < 16` carries
the `j`-th entry of the 16-entry first-name table of its own chosen
gender, and the `j`-th entry of the surname table of that same gender
(the selector branches on `gender === "male"`, exactly as stated). -/
theorem names_surnames_match_gender (req : Request) (n : Int) (age : Age)
    (now : Now) (rand : Nat → ℚ) (fuel : Nat) (l : List Employee) (j : Nat)
    (hc : req.count = JSNum.num n) (ha : req.age = some age)
    (hj : j < 16) (hjn : (j : Int) < n)
    (h : main (some req) now rand fuel = .ok l) :
    j < l.length ∧
    (l.getD j default).name =
      (if (l.getD j default).gender = "male" then maleNames
        else femaleNames).getD j "" ∧
    (l.getD j default).surname =
      (if (l.getD j default).gender = "male" then maleSurnames
        else femaleSurnames).getD j "" := by
  have hg := (main_ok_iff req n age now rand fuel l hc ha).mp h
  have hlen := genLoop_length age now rand fuel n.toNat 0 0 [] l hg
  have hjn' : j < n.toNat := by omega
  have hjl : j < l.length := by omega
  obtain ⟨k2, used2, hdrop⟩ :=
    genLoop_drop age now rand fuel j n.toNat 0 0 [] l hg (by omega)
  obtain ⟨m', hm'⟩ : ∃ m', n.toNat - j = m' + 1 := ⟨n.toNat - j - 1, by omega⟩
  rw [hm'] at hdrop
  obtain ⟨e, rest, -, kn, ks, -, -, hcons, -, -, hname, hsurname, -, -⟩ :=
    genLoop_succ_shape age now rand fuel (0 + j) m' k2 used2 _ hdrop
  have hj' : l[j]? = some e := by
    rw [← List.head?_drop, hcons]
    rfl
  have hget : l.getD j default = e := by
    rw [List.getD_eq_getElem?_getD, hj']
    rfl
  rw [hget]
  refine ⟨hjl, ?_, ?_⟩
  · rw [hname]
    simpa using getName_small j hj e.gender rand kn
  · rw [hsurname]
    simpa using getSurname_small j hj e.gender rand ks

/-- C8 witness: record 1 of the witness run is female and carries the
second female first name and surname. -/
theorem names_surnames_match_gender_witness :
    1 < (empsW4).length ∧
    ((empsW4).getD 1 default).name =
      (if ((empsW4).getD 1 default).gender = "male" then maleNames
        else femaleNames).getD 1 "" ∧
    ((empsW4).getD 1 default).surname =
      (if ((empsW4).getD 1 default).gender = "male" then maleSurnames
        else femaleSurnames).getD 1 "" :=
  names_surnames_match_gender ⟨JSNum.num 4, some ageW⟩ 4 ageW nowW randW 1
    empsW4 1 rfl rfl (by decide) (by decide) mainRunW4

end EmployeeGen
